import Mathlib

/-!
Verification of the search core of the Stockfish repository (src/search.cpp and
the UCI front end in src/unnamed/part_000) against its natural-language
specification.  The C++ code is shallowly embedded: pure helper functions become
Lean functions on `Int` (the C++ `Value`, `Depth` and `int` types, which never
overflow in the ranges exercised here), bitboards become `Nat` with bitwise
operations, and the recursive search calls that a pruning step performs are
passed in as oracle functions, so that each pruning step of `search()` and
`qsearch()` is embedded as a self-contained function of its inputs.

C++ integer division truncates toward zero; it is embedded as `Int.tdiv`.
-/

/-! ## Numeric constants

`ONE_PLY == 2` is documented in src/search.cpp (init_search).  The remaining
constants live in headers (types.h, tt.h, move.h) that are not part of the
repository snapshot. -/

/-- ONE_PLY, the depth granularity; the source comment in init_search states
ONE_PLY == 2. -/
def ONE_PLY : Int := 2

/-- Modelled from the spec: VALUE_MATE, the largest mate score, from the missing
types.h ("Reserved band [VALUE_MATE_IN_PLY_MAX, VALUE_MATE] encodes mate"). -/
def VALUE_MATE : Int := 30000

/-- Modelled from the spec: PLY_MAX, the maximum search ply, from the missing
types.h. -/
def PLY_MAX : Int := 100

/-- Modelled from the spec: lower end of the mate band, from the missing
types.h. -/
def VALUE_MATE_IN_PLY_MAX : Int := VALUE_MATE - PLY_MAX

/-- Modelled from the spec: upper end of the mated band, from the missing
types.h. -/
def VALUE_MATED_IN_PLY_MAX : Int := -VALUE_MATE + PLY_MAX

/-- Modelled from the spec: VALUE_INFINITE, from the missing types.h. -/
def VALUE_INFINITE : Int := 30001

/-- Modelled from the spec: VALUE_NONE, a sentinel distinct from all real
scores, from the missing types.h. -/
def VALUE_NONE : Int := 30002

/-- Modelled from the spec: VALUE_KNOWN_WIN, from the missing types.h. -/
def VALUE_KNOWN_WIN : Int := 15000

/-- VALUE_DRAW = 0 (spec, section 3). -/
def VALUE_DRAW : Int := 0

/-- Modelled from the spec: value_mate_in(ply), the score for giving mate in
ply plies, from the missing types.h (mate band encodes "mate in N plies"). -/
def value_mate_in (ply : Int) : Int := VALUE_MATE - ply

/-- Modelled from the spec: value_mated_in(ply), the score for being mated in
ply plies, from the missing types.h. -/
def value_mated_in (ply : Int) : Int := -VALUE_MATE + ply

/-- Modelled from the spec: PawnValueMidgame, from the missing types.h. -/
def PawnValueMidgame : Int := 198

/-- Modelled from the spec: PawnValueEndgame, from the missing types.h. -/
def PawnValueEndgame : Int := 258

/-- Modelled from the spec: RookValueMidgame, from the missing types.h. -/
def RookValueMidgame : Int := 1270

/-- Modelled from the spec: the `valueType` bitmask over LOWER and UPPER, from
the missing tt.h; EXACT is the union of both bits, NONE is the empty mask. -/
def VALUE_TYPE_NONE : Nat := 0

/-- Modelled from the spec: the UPPER bit of the valueType bitmask. -/
def VALUE_TYPE_UPPER : Nat := 1

/-- Modelled from the spec: the LOWER bit of the valueType bitmask. -/
def VALUE_TYPE_LOWER : Nat := 2

/-- Modelled from the spec: EXACT = LOWER together with UPPER. -/
def VALUE_TYPE_EXACT : Nat := VALUE_TYPE_UPPER ||| VALUE_TYPE_LOWER

/-- Modelled from the spec: MOVE_NONE, the null move encoding from the missing
move.h; moves are used abstractly (a C++ `Move` is a 16-bit integer, embedded
as `Nat`, with MOVE_NONE = 0 so that a move is truthy iff nonzero). -/
def MOVE_NONE : Nat := 0

/-- Modelled from the spec: DEPTH_NONE sentinel depth, from the missing
types.h. -/
def DEPTH_NONE : Int := -254

/-- RazorDepth = 4 * ONE_PLY (src/search.cpp, constants section). -/
def RazorDepth : Int := 4 * ONE_PLY

/-- FutilityMarginQS = 0x80 (src/search.cpp, constants section). -/
def FutilityMarginQS : Int := 0x80

/-- razor_margin(d) = 0x200 + 0x10 * d (src/search.cpp). -/
def razor_margin (d : Int) : Int := 0x200 + 0x10 * d

/-! ## Transposition-table entry -/

/-- Embedding of the TTEntry fields read by the search core: value, depth, the
valueType bitmask, the stored move and the saved static evaluation with its
margin. -/
structure TTEntry where
  value : Int
  depth : Int
  type : Nat
  move : Nat
  staticValue : Int
  staticValueMargin : Int
deriving Repr, DecidableEq

/-! ## Mate-score adjustment and TT cutoff test (src/search.cpp) -/

/-- value_to_tt() adjusts a mate score from "plies to mate from the root" to
"plies to mate from the current ply"; non-mate scores are unchanged
(src/search.cpp). -/
def value_to_tt (v : Int) (ply : Int) : Int :=
  if v ≥ VALUE_MATE_IN_PLY_MAX then v + ply
  else if v ≤ VALUE_MATED_IN_PLY_MAX then v - ply
  else v

/-- value_from_tt() is the inverse of value_to_tt(): it adjusts a mate score
from the transposition table to a mate score corrected for the current ply
(src/search.cpp). -/
def value_from_tt (v : Int) (ply : Int) : Int :=
  if v ≥ VALUE_MATE_IN_PLY_MAX then v - ply
  else if v ≤ VALUE_MATED_IN_PLY_MAX then v + ply
  else v

/-- can_return_tt() returns true if a transposition table score can be used to
cut off at a given point in search (src/search.cpp). -/
def can_return_tt (tte : TTEntry) (depth : Int) (beta : Int) (ply : Int) : Bool :=
  let v := value_from_tt tte.value ply
  (decide (tte.depth ≥ depth) || decide (v ≥ max VALUE_MATE_IN_PLY_MAX beta)
      || decide (v < min VALUE_MATED_IN_PLY_MAX beta))
    && ((decide (tte.type &&& VALUE_TYPE_LOWER ≠ 0) && decide (v ≥ beta))
      || (decide (tte.type &&& VALUE_TYPE_UPPER ≠ 0) && decide (v < beta)))

/-- refine_eval() returns the transposition table score if usable as a bound on
the static evaluation, otherwise the static evaluation itself
(src/search.cpp). -/
def refine_eval (tte : TTEntry) (defaultEval : Int) (ply : Int) : Int :=
  let v := value_from_tt tte.value ply
  if (tte.type &&& VALUE_TYPE_LOWER ≠ 0 ∧ v ≥ defaultEval)
      ∨ (tte.type &&& VALUE_TYPE_UPPER ≠ 0 ∧ v < defaultEval) then v
  else defaultEval

/-- C1: for every TT entry tte, depth d, beta b and ply p, can_return_tt
returns true iff (tte.depth ≥ d, or v ≥ max(VALUE_MATE_IN_PLY_MAX, b), or
v < min(VALUE_MATED_IN_PLY_MAX, b)) and ((tte.type has the LOWER bit and
v ≥ b) or (tte.type has the UPPER bit and v < b)), where
v = value_from_tt(tte.value, p). -/
theorem can_return_tt_iff (tte : TTEntry) (d b p : Int) :
    can_return_tt tte d b p = true ↔
      ((tte.depth ≥ d
          ∨ value_from_tt tte.value p ≥ max VALUE_MATE_IN_PLY_MAX b
          ∨ value_from_tt tte.value p < min VALUE_MATED_IN_PLY_MAX b)
        ∧ ((tte.type &&& VALUE_TYPE_LOWER ≠ 0 ∧ value_from_tt tte.value p ≥ b)
          ∨ (tte.type &&& VALUE_TYPE_UPPER ≠ 0 ∧ value_from_tt tte.value p < b))) := by
  simp [can_return_tt, Bool.and_eq_true, Bool.or_eq_true, decide_eq_true_iff]
  tauto

/-- C2: for every value v and every ply ≥ 0,
value_from_tt(value_to_tt(v, ply), ply) = v. -/
theorem value_tt_round_trip (v : Int) (ply : Int) (h : 0 ≤ ply) :
    value_from_tt (value_to_tt v ply) ply = v := by
  simp only [value_to_tt, value_from_tt, VALUE_MATE_IN_PLY_MAX,
    VALUE_MATED_IN_PLY_MAX, VALUE_MATE, PLY_MAX]
  split_ifs <;> omega

/-- Witness for C2 at v = 29950, ply = 3. -/
theorem value_tt_round_trip_witness :
    (0 : Int) ≤ 3 ∧ value_from_tt (value_to_tt 29950 3) 3 = 29950 :=
  ⟨by decide, value_tt_round_trip 29950 3 (by decide)⟩

/-! ## Step 6: razoring (src/search.cpp, search<NT>)

The recursive qsearch call is passed in as an oracle `qs` taking the window
(alpha, beta); the source calls it at DEPTH_ZERO on the current position.
`none` means the step falls through to the next step of search(). -/

/-- Razoring step of search(): at non-PV nodes with shallow depth, no TT move,
no pawn on the 7th rank and a refined eval far below beta, verify with a
zero-window qsearch at rbeta = beta - razor_margin(depth) and return its value
when it stays below rbeta (src/search.cpp, step 6). -/
def razoring_step (qs : Int → Int → Int) ( is_pv inCheck : Bool)
    (depth refinedValue beta : Int) (ttMove : Nat) (hasPawnOn7th : Bool) :
    Option Int :=
  if ! is_pv && decide (depth < RazorDepth) && !inCheck
      && decide (refinedValue + razor_margin depth < beta)
      && decide (ttMove = MOVE_NONE)
      && decide (|beta| < VALUE_MATE_IN_PLY_MAX)
      && !hasPawnOn7th then
    let rbeta := beta - razor_margin depth
    let v := qs (rbeta - 1) rbeta
    if v < rbeta then some v else none
  else none

/-- C4: at a non-PV node not in check, with depth < 4*ONE_PLY, no TT move,
|beta| below the mate band, no 7th-rank pawn and
refinedValue + razor_margin(depth) < beta (razor_margin(d) = 512 + 16*d), the
razoring step runs a qsearch with window [rbeta-1, rbeta] where
rbeta = beta - razor_margin(depth), and if that value v is below rbeta the
search returns exactly v, not v + razor_margin(depth). -/
theorem razoring_spec (qs : Int → Int → Int) (depth refinedValue beta : Int)
    (hd : depth < RazorDepth)
    (hr : refinedValue + razor_margin depth < beta)
    (hb : |beta| < VALUE_MATE_IN_PLY_MAX) :
    razor_margin depth = 512 + 16 * depth
    ∧ razoring_step qs false false depth refinedValue beta MOVE_NONE false =
        (if qs (beta - razor_margin depth - 1) (beta - razor_margin depth)
              < beta - razor_margin depth
         then some (qs (beta - razor_margin depth - 1) (beta - razor_margin depth))
         else none) := by
  constructor
  · simp [razor_margin]
  · simp [razoring_step, hd, hr, hb]

/-- Witness for C4 with a constant qsearch oracle at depth 2, beta 600,
refinedValue 0. -/
theorem razoring_spec_witness :
    ((2 : Int) < RazorDepth ∧ (0 : Int) + razor_margin 2 < 600
        ∧ |(600 : Int)| < VALUE_MATE_IN_PLY_MAX)
    ∧ razor_margin 2 = 512 + 16 * 2
    ∧ razoring_step (fun _ _ => 0) false false 2 0 600 MOVE_NONE false =
        (if (fun _ _ => (0 : Int)) (600 - razor_margin 2 - 1) (600 - razor_margin 2)
              < 600 - razor_margin 2
         then some ((fun _ _ => (0 : Int)) (600 - razor_margin 2 - 1) (600 - razor_margin 2))
         else none) :=
  ⟨⟨by decide, by decide, by decide⟩,
    razoring_spec (fun _ _ => 0) 2 0 600 (by decide) (by decide) (by decide)⟩

/-! ## Step 8: null move search with verification (src/search.cpp, search<NT>)

Oracles: `qs` is the child qsearch on the position after the null move, taking
the window (alpha, beta); `searchChild` is the child search<NonPV> on the
position after the null move, taking (skipNullMove set on the child frame,
alpha, beta, depth); `searchVerify` is the verification search<NonPV> at the
same node, taking (skipNullMove set on this frame, alpha, beta, depth).
`childBestMove` is (ss+1)->bestMove after the child search, `parentReduced`
tells whether (ss-1)->reduction is nonzero, and `connectedToParent m` embeds
connected_moves(pos, (ss-1)->currentMove, m). -/

/-- ThreatDepth = 5 * ONE_PLY (src/search.cpp, constants section). -/
def ThreatDepth : Int := 5 * ONE_PLY

/-- Result of the null-move step: an early return value, if any, and the
threat move it publishes for the rest of the move loop. -/
structure NullMoveOut where
  ret : Option Int
  threatMove : Nat
deriving Repr, DecidableEq

/-- Null move dynamic reduction R based on depth and value
(src/search.cpp, step 8). -/
def null_move_R (depth refinedValue beta : Int) : Int :=
  let R := 3 + (if depth ≥ 5 * ONE_PLY then Int.tdiv depth 8 else 0)
  if refinedValue - PawnValueMidgame > beta then R + 1 else R

/-- Null-move step of search(): under its preconditions, search the child after
a null move at depth reduced by R plies with skipNullMove on the child; on a
fail-high, cap unproven mate scores to beta, return at once at shallow depth or
after a successful verification search, and on a fail-low publish the child's
best move as the threat move, possibly returning beta - 1 when the parent move
was a reduced move connected to the threat (src/search.cpp, step 8). -/
def null_move_step (qs : Int → Int → Int)
    (searchChild : Bool → Int → Int → Int → Int)
    (searchVerify : Bool → Int → Int → Int → Int)
    (childBestMove : Nat) (parentReduced : Bool) (connectedToParent : Nat → Bool)
    ( is_pv skipNullMove inCheck : Bool)
    (depth alpha beta refinedValue nonPawnMaterial : Int) : NullMoveOut :=
  if ! is_pv && !skipNullMove && decide (depth > ONE_PLY) && !inCheck
      && decide (refinedValue ≥ beta) && decide (|beta| < VALUE_MATE_IN_PLY_MAX)
      && decide (nonPawnMaterial ≠ 0) then
    let R := null_move_R depth refinedValue beta
    let nullValue :=
      if depth - R * ONE_PLY < ONE_PLY then -(qs (-beta) (-alpha))
      else -(searchChild true (-beta) (-alpha) (depth - R * ONE_PLY))
    if nullValue ≥ beta then
      let nullValue := if nullValue ≥ VALUE_MATE_IN_PLY_MAX then beta else nullValue
      if depth < 6 * ONE_PLY then ⟨some nullValue, MOVE_NONE⟩
      else
        let v := searchVerify true alpha beta (depth - R * ONE_PLY)
        if v ≥ beta then ⟨some nullValue, MOVE_NONE⟩ else ⟨none, MOVE_NONE⟩
    else
      if decide (depth < ThreatDepth) && parentReduced
          && decide (childBestMove ≠ MOVE_NONE) && connectedToParent childBestMove then
        ⟨some (beta - 1), childBestMove⟩
      else ⟨none, childBestMove⟩
  else ⟨none, MOVE_NONE⟩

/-- C3: under the null-move preconditions the reduction is
R = 3 + (depth/8 if depth ≥ 5*ONE_PLY else 0), plus 1 when
refinedValue - PawnValueMidgame > beta; the child is searched with
skipNullMove = true (qsearch when depth - R*ONE_PLY < ONE_PLY); on a fail-high
a null value ≥ VALUE_MATE_IN_PLY_MAX is capped to beta, the capped value is
returned immediately (for every verification oracle) exactly when
depth < 6*ONE_PLY, and at greater depths only after a verification search with
skipNullMove = true at the same node also reaches beta. -/
theorem null_move_spec (qs : Int → Int → Int)
    (searchChild : Bool → Int → Int → Int → Int)
    (searchVerify : Bool → Int → Int → Int → Int)
    (childBestMove : Nat) (parentReduced : Bool) (connectedToParent : Nat → Bool)
    (depth alpha beta refinedValue nonPawnMaterial : Int)
    (hd : depth > ONE_PLY) (hr : refinedValue ≥ beta)
    (hb : |beta| < VALUE_MATE_IN_PLY_MAX) (hm : nonPawnMaterial ≠ 0) :
    null_move_R depth refinedValue beta
        = 3 + (if depth ≥ 5 * ONE_PLY then Int.tdiv depth 8 else 0)
            + (if refinedValue - PawnValueMidgame > beta then 1 else 0)
    ∧ (let R := null_move_R depth refinedValue beta
       let nv := if depth - R * ONE_PLY < ONE_PLY then -(qs (-beta) (-alpha))
                 else -(searchChild true (-beta) (-alpha) (depth - R * ONE_PLY))
       let capped := if nv ≥ VALUE_MATE_IN_PLY_MAX then beta else nv
       (nv ≥ beta → depth < 6 * ONE_PLY →
          ∀ sv : Bool → Int → Int → Int → Int,
            (null_move_step qs searchChild sv childBestMove parentReduced
                connectedToParent false false false depth alpha beta refinedValue
                nonPawnMaterial).ret = some capped)
       ∧ (nv ≥ beta → ¬depth < 6 * ONE_PLY →
            (null_move_step qs searchChild searchVerify childBestMove parentReduced
                connectedToParent false false false depth alpha beta refinedValue
                nonPawnMaterial).ret =
              if searchVerify true alpha beta (depth - R * ONE_PLY) ≥ beta
              then some capped else none)) := by
  refine ⟨?_, ?_, ?_⟩
  · simp only [null_move_R]
    split_ifs <;> omega
  · intro hnv hdep sv
    simp only [null_move_step, Bool.not_false, Bool.true_and, decide_eq_true hd,
      decide_eq_true hr, decide_eq_true hb, decide_eq_true hm, Bool.and_self,
      if_true, if_pos hnv, if_pos hdep]
  · intro hnv hdep
    simp only [null_move_step, Bool.not_false, Bool.true_and, decide_eq_true hd,
      decide_eq_true hr, decide_eq_true hb, decide_eq_true hm, Bool.and_self,
      if_true, if_pos hnv, if_neg hdep]
    split <;> rfl

/-- Witness for C3 at depth 4, beta 10, refinedValue 20, with constant
oracles. -/
theorem null_move_spec_witness :
    ((4 : Int) > ONE_PLY ∧ (20 : Int) ≥ 10 ∧ |(10 : Int)| < VALUE_MATE_IN_PLY_MAX
        ∧ (5 : Int) ≠ 0)
    ∧ (null_move_R 4 20 10
          = 3 + (if (4 : Int) ≥ 5 * ONE_PLY then Int.tdiv 4 8 else 0)
              + (if (20 : Int) - PawnValueMidgame > 10 then 1 else 0)
        ∧ (let R := null_move_R 4 20 10
           let nv := if (4 : Int) - R * ONE_PLY < ONE_PLY
                     then -((fun _ _ => (-50 : Int)) (-(10 : Int)) (-(0 : Int)))
                     else -((fun _ _ _ _ => (-50 : Int)) true (-(10 : Int)) (-(0 : Int))
                              (4 - R * ONE_PLY))
           let capped := if nv ≥ VALUE_MATE_IN_PLY_MAX then (10 : Int) else nv
           (nv ≥ 10 → (4 : Int) < 6 * ONE_PLY →
              ∀ sv : Bool → Int → Int → Int → Int,
                (null_move_step (fun _ _ => (-50 : Int)) (fun _ _ _ _ => (-50 : Int)) sv
                    MOVE_NONE false (fun _ => false) false false false 4 0 10 20 5).ret
                  = some capped)
           ∧ (nv ≥ 10 → ¬(4 : Int) < 6 * ONE_PLY →
                (null_move_step (fun _ _ => (-50 : Int)) (fun _ _ _ _ => (-50 : Int))
                    (fun _ _ _ _ => (0 : Int)) MOVE_NONE false (fun _ => false)
                    false false false 4 0 10 20 5).ret =
                  if (fun _ _ _ _ => (0 : Int)) true (0 : Int) (10 : Int) (4 - R * ONE_PLY) ≥ 10
                  then some capped else none))) :=
  ⟨⟨by decide, by decide, by decide, by decide⟩,
    null_move_spec (fun _ _ => (-50 : Int)) (fun _ _ _ _ => (-50 : Int))
      (fun _ _ _ _ => (0 : Int)) MOVE_NONE false (fun _ => false)
      4 0 10 20 5 (by decide) (by decide) (by decide) (by decide)⟩

/-! ## Step 20: mate and stalemate detection (src/search.cpp, search<NT>) -/

/-- Step 20 of search(): when not at a split point and no moves were tried,
return oldAlpha under an excluded move, the mated-in score when in check, and
the draw score otherwise; `none` means search() continues to step 21
(src/search.cpp, step 20). -/
def search_no_moves_return (spNode : Bool) (moveCount : Nat) (excludedMove : Nat)
    (inCheck : Bool) (oldAlpha : Int) (ply : Int) : Option Int :=
  if !spNode && decide (moveCount = 0) then
    some (if excludedMove ≠ MOVE_NONE then oldAlpha
          else if inCheck then value_mated_in ply else VALUE_DRAW)
  else none

/-- C5: at a non-split-point node whose move loop tried no moves, search
returns oldAlpha when an excluded move was set, else value_mated_in(ply) when
in check, else VALUE_DRAW. -/
theorem search_no_moves_spec (excludedMove : Nat) (inCheck : Bool)
    (oldAlpha : Int) (ply : Int) :
    (excludedMove ≠ MOVE_NONE →
       search_no_moves_return false 0 excludedMove inCheck oldAlpha ply = some oldAlpha)
    ∧ (excludedMove = MOVE_NONE → inCheck = true →
         search_no_moves_return false 0 excludedMove inCheck oldAlpha ply
           = some (value_mated_in ply))
    ∧ (excludedMove = MOVE_NONE → inCheck = false →
         search_no_moves_return false 0 excludedMove inCheck oldAlpha ply
           = some VALUE_DRAW) := by
  refine ⟨fun hx => by simp [search_no_moves_return, hx],
    fun hx hc => by simp [search_no_moves_return, hx, hc],
    fun hx hc => by simp [search_no_moves_return, hx, hc]⟩

/-- Witness for C5 in the stalemate case. -/
theorem search_no_moves_spec_witness :
    search_no_moves_return false 0 0 false 5 3 = some VALUE_DRAW :=
  (search_no_moves_spec 0 false 5 3).2.2 rfl rfl

/-! ## Static evaluation and stand pat in qsearch (src/search.cpp, qsearch<NT>)

The section between the TT lookup and the move loop is embedded as a function
of the probed entry (`tte`), the window, and the freshly computed evaluation
that the source would obtain from evaluate() when no entry exists.  The
outcome is either an immediate return (with the TT store it performs, using
the TTEntry record for the stored fields) or the state the move loop starts
from. -/

/-- Outcome of the evaluation/stand-pat section of qsearch(): `ret` is an
immediate return carrying its TT store, `go` carries bestValue, ss->eval,
evalMargin, futilityBase, enoughMaterial and the possibly raised alpha into
the move loop. -/
inductive QsInit where
  | ret (value : Int) (store : Option TTEntry)
  | go (bestValue ev evalMargin futilityBase : Int)
       (enoughMaterial : Bool) (alphaOut : Int)
deriving Repr, DecidableEq

/-- Evaluation and stand-pat section of qsearch(): in check, bestValue starts
at -VALUE_INFINITE with no early return; otherwise bestValue starts at the
static evaluation (from the TT entry when present, else freshly computed), a
bestValue at least beta is returned at once storing a LOWER entry when no TT
entry existed, at PV nodes alpha is raised to a larger bestValue, and the
futility parameters are set up (src/search.cpp, qsearch). -/
def qsearch_eval_init ( is_pv inCheck : Bool) (tte : Option TTEntry)
    (alpha beta freshEval freshEvalMargin : Int) (ply : Int)
    (nonPawnMaterial : Int) : QsInit :=
  if inCheck then
    .go (-VALUE_INFINITE) VALUE_NONE VALUE_NONE (-VALUE_INFINITE) false alpha
  else
    let ev := match tte with | some t => t.staticValue | none => freshEval
    let em := match tte with | some t => t.staticValueMargin | none => freshEvalMargin
    let bestValue := ev
    if bestValue ≥ beta then
      .ret bestValue
        (if tte = none
         then some ⟨value_to_tt bestValue ply, DEPTH_NONE, VALUE_TYPE_LOWER,
                    MOVE_NONE, ev, em⟩
         else none)
    else
      let alpha' := if is_pv && decide (bestValue > alpha) then bestValue else alpha
      .go bestValue ev em (ev + em + FutilityMarginQS)
        (decide (nonPawnMaterial > RookValueMidgame)) alpha'

/-- Counterexample to C6: with an existing TT entry whose static value 100
reaches beta = 50, qsearch returns the stand-pat value but stores no TT entry
at all, against the claim that a LOWER-bound entry is stored. -/
theorem qsearch_stand_pat_counterexample :
    qsearch_eval_init false false (some ⟨0, 0, 0, 0, 100, 0⟩) 0 50 77 0 1 0
      = .ret 100 none := by
  rfl

/-- C6 (amended): when not in check, bestValue is initialized to the static
evaluation (from the TT entry when one exists, else freshly computed); if
bestValue ≥ beta qsearch returns bestValue without searching any move and
stores a LOWER-bound TT entry only when no TT entry existed; otherwise at PV
nodes alpha is raised to bestValue when bestValue > alpha. -/
theorem qsearch_stand_pat_spec ( is_pv : Bool) (tte : Option TTEntry)
    (alpha beta freshEval freshEvalMargin ply nonPawnMaterial : Int) :
    (let ev := match tte with | some t => t.staticValue | none => freshEval
     let em := match tte with | some t => t.staticValueMargin | none => freshEvalMargin
     (ev ≥ beta →
        qsearch_eval_init is_pv false tte alpha beta freshEval freshEvalMargin ply
            nonPawnMaterial
          = .ret ev (if tte = none
                     then some ⟨value_to_tt ev ply, DEPTH_NONE, VALUE_TYPE_LOWER,
                                MOVE_NONE, ev, em⟩
                     else none))
     ∧ (ev < beta →
          qsearch_eval_init is_pv false tte alpha beta freshEval freshEvalMargin ply
              nonPawnMaterial
            = .go ev ev em (ev + em + FutilityMarginQS)
                (decide (nonPawnMaterial > RookValueMidgame))
                (if is_pv && decide (ev > alpha) then ev else alpha))) := by
  refine ⟨fun hge => ?_, fun hlt => ?_⟩
  · simp only [qsearch_eval_init, if_neg (Bool.false_ne_true), Bool.false_eq_true,
      if_false, if_pos hge]
  · simp only [qsearch_eval_init, Bool.false_eq_true, if_false, if_neg (not_le.mpr hlt)]

/-- Witness for C6 (amended) in the fresh-eval stand-pat case. -/
theorem qsearch_stand_pat_spec_witness :
    (77 : Int) ≥ 50
    ∧ qsearch_eval_init false false none 0 50 77 3 1 0
        = .ret 77 (some ⟨value_to_tt 77 1, DEPTH_NONE, VALUE_TYPE_LOWER,
                          MOVE_NONE, 77, 3⟩) :=
  ⟨by decide, by
    have h := (qsearch_stand_pat_spec false none 0 50 77 3 1 0).1 (by decide)
    simpa using h⟩

/-! ## Aspiration window (src/search.cpp, id_loop) -/

/-- Helper: rounding an integer between 16 and 24 up to the next multiple of 8
with (x + 7) / 8 * 8 always yields 16 or 24. -/
theorem round_to_grain_16_24 (k : Int) (h1 : 16 ≤ k) (h2 : k ≤ 24) :
    Int.tdiv (k + 7) 8 * 8 = 16 ∨ Int.tdiv (k + 7) 8 * 8 = 24 := by
  interval_cases k <;> decide

/-- Aspiration-window computation of id_loop(): given the iteration depth, the
root move's prevScore, the best values of the three previous iterations and
the delta left over from the previous window, produce (aspirationDelta, alpha,
beta) for the next search<Root> call (src/search.cpp, id_loop). -/
def aspiration_bounds (depth prevScore bv1 bv2 bv3 prevDelta : Int) :
    Int × Int × Int :=
  if depth ≥ 5 ∧ |prevScore| < VALUE_KNOWN_WIN then
    let prevDelta1 := bv1 - bv2
    let prevDelta2 := bv2 - bv3
    let d := min (max (|prevDelta1| + Int.tdiv |prevDelta2| 2) 16) 24
    let d := Int.tdiv (d + 7) 8 * 8
    (d, max (prevScore - d) (-VALUE_INFINITE), min (prevScore + d) VALUE_INFINITE)
  else
    (prevDelta, -VALUE_INFINITE, VALUE_INFINITE)

/-- C7: for an iteration with depth ≥ 5 and |prevScore| below VALUE_KNOWN_WIN,
the aspiration delta is min(max(|Δ1| + |Δ2|/2, 16), 24) rounded up to the next
multiple of 8 as (x+7)/8*8 — hence always 16 or 24 — and the window is
[prevScore - delta, prevScore + delta] clamped to ±VALUE_INFINITE; in every
other case the window is [-VALUE_INFINITE, VALUE_INFINITE]. -/
theorem aspiration_window_spec (depth prevScore bv1 bv2 bv3 prevDelta : Int) :
    (depth ≥ 5 → |prevScore| < VALUE_KNOWN_WIN →
       ∃ d, aspiration_bounds depth prevScore bv1 bv2 bv3 prevDelta
              = (d, max (prevScore - d) (-VALUE_INFINITE),
                 min (prevScore + d) VALUE_INFINITE)
            ∧ d = Int.tdiv (min (max (|bv1 - bv2| + Int.tdiv (|bv2 - bv3|) 2) 16) 24 + 7) 8 * 8
            ∧ (d = 16 ∨ d = 24))
    ∧ (¬(depth ≥ 5 ∧ |prevScore| < VALUE_KNOWN_WIN) →
         aspiration_bounds depth prevScore bv1 bv2 bv3 prevDelta
           = (prevDelta, -VALUE_INFINITE, VALUE_INFINITE)) := by
  constructor
  · intro hd hp
    refine ⟨_, ?_, rfl, ?_⟩
    · simp only [aspiration_bounds, if_pos (And.intro hd hp)]
    · apply round_to_grain_16_24
      · have : (16 : Int) ≤ max (|bv1 - bv2| + Int.tdiv (|bv2 - bv3|) 2) 16 :=
          le_max_right _ _
        omega
      · exact min_le_right _ _
  · intro h
    simp only [aspiration_bounds, if_neg h]

/-- Witness for C7 with depth 6, prevScore 30, best values 40, 10, 10. -/
theorem aspiration_window_spec_witness :
    ((6 : Int) ≥ 5 ∧ |(30 : Int)| < VALUE_KNOWN_WIN)
    ∧ (∃ d, aspiration_bounds 6 30 40 10 10 0
              = (d, max (30 - d) (-VALUE_INFINITE), min (30 + d) VALUE_INFINITE)
            ∧ d = Int.tdiv (min (max (|(40 : Int) - 10| + Int.tdiv (|(10 : Int) - 10|) 2) 16) 24 + 7) 8 * 8
            ∧ (d = 16 ∨ d = 24)) :=
  ⟨⟨by decide, by decide⟩,
    (aspiration_window_spec 6 30 40 10 10 0).1 (by decide) (by decide)⟩

/-! ## NodesBetweenPolls initialization (src/search.cpp, think) -/

/-- NodesBetweenPolls initialization in think(): with a node limit, the poll
interval is min(maxNodes, 30000) and the time budget is ignored; without one
it is tuned from the time budget (src/search.cpp, think). -/
def nodes_between_polls (maxNodes time : Int) : Int :=
  if maxNodes ≠ 0 then min maxNodes 30000
  else if time ≠ 0 ∧ time < 1000 then 1000
  else if time ≠ 0 ∧ time < 5000 then 5000
  else 30000

/-- Counterexample to C8: with maxNodes = 30000 and a positive time budget of
500 ms (below one second), NodesBetweenPolls is 30000, not the 1000 the claim
requires for every sub-second time budget. -/
theorem nodes_between_polls_counterexample :
    ((0 : Int) < 500 ∧ (500 : Int) < 1000)
    ∧ nodes_between_polls 30000 500 ≠ 1000 := by
  refine ⟨⟨by decide, by decide⟩, ?_⟩
  decide

/-- C8 (amended): when a node limit is given, NodesBetweenPolls equals
min(maxNodes, 30000) — never exceeding maxNodes — and the time budget is
ignored; only when no node limit is given does it equal 1000 for a nonzero
time budget below 1 second, 5000 for a nonzero one below 5 seconds, and 30000
otherwise. -/
theorem nodes_between_polls_spec (maxNodes time : Int) :
    (maxNodes ≠ 0 →
       nodes_between_polls maxNodes time = min maxNodes 30000
       ∧ nodes_between_polls maxNodes time ≤ maxNodes)
    ∧ (maxNodes = 0 → time ≠ 0 → time < 1000 →
         nodes_between_polls maxNodes time = 1000)
    ∧ (maxNodes = 0 → time ≠ 0 → 1000 ≤ time → time < 5000 →
         nodes_between_polls maxNodes time = 5000)
    ∧ (maxNodes = 0 → time = 0 ∨ 5000 ≤ time →
         nodes_between_polls maxNodes time = 30000) := by
  refine ⟨fun hm => ?_, fun hm ht h1 => ?_, fun hm ht h1 h5 => ?_, fun hm ht => ?_⟩
  · constructor
    · simp [nodes_between_polls, hm]
    · simp only [nodes_between_polls, if_pos hm]
      exact min_le_left _ _
  · simp [nodes_between_polls, hm, ht, h1]
  · simp [nodes_between_polls, hm, ht, h1, h5]
  · rcases ht with h | h <;> simp [nodes_between_polls, hm, h]
    omega

/-- Witness for C8 (amended) with maxNodes = 50000. -/
theorem nodes_between_polls_spec_witness :
    (50000 : Int) ≠ 0
    ∧ nodes_between_polls 50000 0 = min 50000 30000
    ∧ nodes_between_polls 50000 0 ≤ 50000 :=
  ⟨by decide, (nodes_between_polls_spec 50000 0).1 (by decide)⟩

/-! ## check_is_dangerous (src/search.cpp)

Bitboards are `Nat`s; `x & ~y` on 64-bit boards is `Nat.ldiff x y`.  The
while/pop_1st_bit loop walks the set bits of a board from the least
significant upward; it is embedded by extracting that list of bit indices
(with a fuel argument bounded by the board itself, which strictly decreases at
every pop, so the fuel never runs out) and folding over it.  Position queries
are carried in a record: `attacks sq occ` is attacks_from(pc, sq, occ) for the
moving piece, `victimValue sq` is PieceValueEndgame[piece_on(sq)], and
`seeSign sq` is see_sign(make_move(from, sq)). -/

/-- Difference of bitboards: x & ~y, computed arithmetically (the bits of
x &&& y form a sub-number of x, so subtracting clears exactly them). -/
def bbDiff (x y : Nat) : Nat := x - (x &&& y)

/-- Fuelled worker for `lowBitIdx`; halving an even nonzero number strictly
decreases it, so fuel b suffices exactly. -/
def lowBitIdxGo : Nat → Nat → Nat
  | 0, _ => 0
  | fuel + 1, b => if b % 2 = 1 ∨ b = 0 then 0 else lowBitIdxGo fuel (b / 2) + 1

/-- Index of the least significant set bit of a nonzero number (0 for 0). -/
def lowBitIdx (b : Nat) : Nat := lowBitIdxGo b b

/-- Fuelled worker for `bitIndices`; popping the lowest set bit with
b &&& (b - 1) strictly decreases b, so fuel b suffices exactly. -/
def bitIndicesGo : Nat → Nat → List Nat
  | 0, _ => []
  | fuel + 1, b => if b = 0 then [] else lowBitIdx b :: bitIndicesGo fuel (b &&& (b - 1))

/-- Indices of the set bits of a board, least significant first; this is the
order in which pop_1st_bit serves them to the while loop. -/
def bitIndices (b : Nat) : List Nat := bitIndicesGo b b

/-- Position data consumed by check_is_dangerous(). -/
structure CheckDangerPos where
  occupied : Nat
  kingAtt : Nat
  piecesThem : Nat
  ksq : Nat
  isQueen : Bool
  attacks : Nat → Nat → Nat
  victimValue : Nat → Int
  seeSign : Nat → Int

/-- Occupancy with the moving piece and the opposing king removed
(src/search.cpp, check_is_dangerous). -/
def cid_occ (p : CheckDangerPos) (fromSq : Nat) : Nat :=
  bbDiff (bbDiff p.occupied (1 <<< fromSq)) (1 <<< p.ksq)

/-- Board of rule 3's victims: opposing pieces newly attacked from the
destination square, king square excluded (src/search.cpp,
check_is_dangerous). -/
def cid_victims (p : CheckDangerPos) (fromSq toSq : Nat) : Nat :=
  bbDiff (bbDiff (p.piecesThem &&& p.attacks toSq (cid_occ p fromSq))
      (p.attacks fromSq (cid_occ p fromSq)))
    (1 <<< p.ksq)

/-- Rule 3's while loop over the victim squares: `none` when a victim makes
the check dangerous (the source then returns true without writing bestValue),
`some bv` with the accumulated local bv when the loop completes
(src/search.cpp, check_is_dangerous). -/
def cid_rule3 (victimValue : Nat → Int) (seeSign : Nat → Int)
    (futilityBase beta : Int) : List Nat → Int → Option Int
  | [], bv => some bv
  | v :: rest, bv =>
      let futilityValue := futilityBase + victimValue v
      if futilityValue ≥ beta ∧ seeSign v ≥ 0 then none
      else cid_rule3 victimValue seeSign futilityBase beta rest
             (if futilityValue > bv then futilityValue else bv)

/-- Rule 1's board of king escape squares left after the check
(src/search.cpp, check_is_dangerous). -/
def cid_escapes (p : CheckDangerPos) (fromSq toSq : Nat) : Nat :=
  bbDiff
    (bbDiff (bbDiff p.kingAtt p.piecesThem) (p.attacks toSq (cid_occ p fromSq)))
    (1 <<< toSq)

/-- check_is_dangerous() tests if a checking move can be pruned in qsearch();
the second component is the value of the bestValue out-parameter after the
call, which the source writes only when returning false
(src/search.cpp). -/
def check_is_dangerous (p : CheckDangerPos) (fromSq toSq : Nat)
    (futilityBase beta bestValue : Int) : Bool × Int :=
  if !(decide (cid_escapes p fromSq toSq ≠ 0)
      && decide (cid_escapes p fromSq toSq &&& (cid_escapes p fromSq toSq - 1) ≠ 0))
  then (true, bestValue)
  else if p.isQueen && p.kingAtt.testBit toSq then (true, bestValue)
  else
    match cid_rule3 p.victimValue p.seeSign futilityBase beta
        (bitIndices (cid_victims p fromSq toSq)) bestValue with
    | none => (true, bestValue)
    | some bv => (false, bv)

/-- Helper for C9: when rule 3's loop completes, the local bv it returns is
the running maximum of the initial bestValue and the candidate futility values
of all victims in the list. -/
theorem cid_rule3_fold (victimValue : Nat → Int) (seeSign : Nat → Int)
    (futilityBase beta : Int) (l : List Nat) (bv bv' : Int)
    (h : cid_rule3 victimValue seeSign futilityBase beta l bv = some bv') :
    bv' = List.foldl (fun acc v => max acc (futilityBase + victimValue v)) bv l := by
  induction l generalizing bv with
  | nil =>
      simp only [cid_rule3, Option.some.injEq] at h
      simp [h]
  | cons v rest ih =>
      simp only [cid_rule3] at h
      split at h
      · exact absurd h (by simp)
      · have := ih _ h
        rw [this, List.foldl_cons]
        congr 1
        rcases le_or_lt (futilityBase + victimValue v) bv with hle | hlt
        · rw [if_neg (not_lt.mpr hle), max_eq_left hle]
        · rw [if_pos hlt, max_eq_right (le_of_lt hlt)]

/-- C9: whenever check_is_dangerous returns true the bestValue out-parameter
is left unchanged; only on a false return may bestValue be raised, and then to
the maximum of its old value and the candidate futility values accumulated
over the newly attacked victims. -/
theorem check_is_dangerous_frame (p : CheckDangerPos) (fromSq toSq : Nat)
    (futilityBase beta bestValue : Int) :
    ((check_is_dangerous p fromSq toSq futilityBase beta bestValue).1 = true →
       (check_is_dangerous p fromSq toSq futilityBase beta bestValue).2 = bestValue)
    ∧ ((check_is_dangerous p fromSq toSq futilityBase beta bestValue).1 = false →
       (check_is_dangerous p fromSq toSq futilityBase beta bestValue).2 =
         List.foldl (fun acc v => max acc (futilityBase + p.victimValue v)) bestValue
           (bitIndices (cid_victims p fromSq toSq))) := by
  by_cases h1 : cid_escapes p fromSq toSq = 0
      ∨ cid_escapes p fromSq toSq &&& (cid_escapes p fromSq toSq - 1) = 0
  · constructor
    · intro _
      simp [check_is_dangerous, h1]
    · intro h
      exfalso
      simp [check_is_dangerous, h1] at h
  · by_cases h2 : p.isQueen = true ∧ p.kingAtt.testBit toSq = true
    · constructor
      · intro _
        simp [check_is_dangerous, h1, h2]
      · intro h
        exfalso
        simp [check_is_dangerous, h1, h2] at h
    · rcases hloop : cid_rule3 p.victimValue p.seeSign futilityBase beta
          (bitIndices (cid_victims p fromSq toSq)) bestValue with _ | bv
      · constructor
        · intro _
          simp [check_is_dangerous, h1, h2, hloop]
        · intro h
          exfalso
          simp [check_is_dangerous, h1, h2, hloop] at h
      · constructor
        · intro h
          exfalso
          simp [check_is_dangerous, h1, h2, hloop] at h
        · intro _
          have hfold := cid_rule3_fold p.victimValue p.seeSign futilityBase beta
            (bitIndices (cid_victims p fromSq toSq)) bestValue bv hloop
          simp [check_is_dangerous, h1, h2, hloop, hfold]

/-- Witness for C9: a position where the check attacks one new victim worth
100 with two king escape squares, so the check is not dangerous and bestValue
rises from 3 to 100. -/
theorem check_is_dangerous_frame_witness :
    (check_is_dangerous
        ⟨0, 258, 65536, 0, false, (fun sq _ => if sq = 4 then 65536 else 0),
         (fun _ => 100), (fun _ => 0)⟩ 1 4 0 1000 3).1 = false
    ∧ (check_is_dangerous
        ⟨0, 258, 65536, 0, false, (fun sq _ => if sq = 4 then 65536 else 0),
         (fun _ => 100), (fun _ => 0)⟩ 1 4 0 1000 3).2 =
      List.foldl (fun acc v => max acc (0 + (fun _ => (100 : Int)) v)) 3
        (bitIndices (cid_victims
          ⟨0, 258, 65536, 0, false, (fun sq _ => if sq = 4 then 65536 else 0),
           (fun _ => 100), (fun _ => 0)⟩ 1 4)) :=
  ⟨by decide,
    (check_is_dangerous_frame
        ⟨0, 258, 65536, 0, false, (fun sq _ => if sq = 4 then 65536 else 0),
         (fun _ => 100), (fun _ => 0)⟩ 1 4 0 1000 3).2 (by decide)⟩

/-! ## set_position (src/unnamed/part_000, UCI front end)

The istringstream token stream becomes a `List String`; the position type and
the external primitives from_fen, move_from_uci (returning MOVE_NONE on a
token that is not a legal UCI move) and do_move are parameters of the
embedding.  The UCI_Chess960 flag the source passes to from_fen is folded
into the from_fen parameter. -/

/-- FEN string for the initial position (src/unnamed/part_000). -/
def StarFEN : String := "rnbqkbnr/pppppppp/8/8/8/8/PPPPPPPP/RNBQKBNR w KQkq - 0 1"

/-- Move-list loop of set_position(): play each token's move from the current
position, stopping at the end of input or at the first token that
move_from_uci does not accept (src/unnamed/part_000). -/
def apply_setup_moves {Pos : Type} (move_from_uci : Pos → String → Nat)
    (do_move : Pos → Nat → Pos) : Pos → List String → Pos
  | pos, [] => pos
  | pos, t :: rest =>
      let m := move_from_uci pos t
      if m = MOVE_NONE then pos
      else apply_setup_moves move_from_uci do_move (do_move pos m) rest

/-- set_position() as called on the "position" UCI command: set up the
starting position or the given FEN, then play the setup moves; any other
first token returns with the position untouched (src/unnamed/part_000). -/
def set_position {Pos : Type} (from_fen : String → Pos)
    (move_from_uci : Pos → String → Nat) (do_move : Pos → Nat → Pos)
    (pos : Pos) (tokens : List String) : Pos :=
  match tokens with
  | [] => pos
  | t :: rest =>
      if t = "startpos" then
        apply_setup_moves move_from_uci do_move (from_fen StarFEN) (rest.drop 1)
      else if t = "fen" then
        let fen := String.join ((rest.takeWhile (fun s => s ≠ "moves")).map (fun s => s ++ " "))
        apply_setup_moves move_from_uci do_move (from_fen fen)
          ((rest.dropWhile (fun s => s ≠ "moves")).drop 1)
      else pos

/-- Reference fold for the move list: `some pos'` when every token in the list
parses as a legal move from the evolving position, `none` otherwise. -/
def play_all_moves {Pos : Type} (move_from_uci : Pos → String → Nat)
    (do_move : Pos → Nat → Pos) : Pos → List String → Option Pos
  | pos, [] => some pos
  | pos, t :: rest =>
      let m := move_from_uci pos t
      if m = MOVE_NONE then none
      else play_all_moves move_from_uci do_move (do_move pos m) rest

/-- Helper for C10: the move-list loop plays exactly the maximal leading run
of parsable tokens and ignores everything from the first failing token on. -/
theorem apply_setup_moves_stops {Pos : Type} (move_from_uci : Pos → String → Nat)
    (do_move : Pos → Nat → Pos) (ts : List String) (pos pos' : Pos)
    (bad : String) (junk : List String)
    (hall : play_all_moves move_from_uci do_move pos ts = some pos')
    (hbad : move_from_uci pos' bad = MOVE_NONE) :
    apply_setup_moves move_from_uci do_move pos (ts ++ bad :: junk) = pos' := by
  induction ts generalizing pos with
  | nil =>
      simp only [play_all_moves, Option.some.injEq] at hall
      subst hall
      simp [apply_setup_moves, hbad]
  | cons t rest ih =>
      simp only [play_all_moves] at hall
      by_cases hm : move_from_uci pos t = MOVE_NONE
      · rw [if_pos hm] at hall
        exact absurd hall (by simp)
      · rw [if_neg hm] at hall
        simpa [apply_setup_moves, hm] using ih _ hall

/-- C10: an input whose first token is neither "startpos" nor "fen" (or an
empty input) leaves the position unmodified; the position is re-initialized
from a FEN only for those two tokens, and the following move list is applied
only up to the first token that does not parse as a legal UCI move. -/
theorem set_position_spec {Pos : Type} (from_fen : String → Pos)
    (move_from_uci : Pos → String → Nat) (do_move : Pos → Nat → Pos)
    (pos : Pos) :
    (set_position from_fen move_from_uci do_move pos [] = pos)
    ∧ (∀ t rest, t ≠ "startpos" → t ≠ "fen" →
         set_position from_fen move_from_uci do_move pos (t :: rest) = pos)
    ∧ (∀ ts pos' bad junk,
         play_all_moves move_from_uci do_move (from_fen StarFEN) ts = some pos' →
         move_from_uci pos' bad = MOVE_NONE →
         set_position from_fen move_from_uci do_move pos
             ("startpos" :: "moves" :: (ts ++ bad :: junk)) = pos') := by
  refine ⟨rfl, fun t rest h1 h2 => ?_, fun ts pos' bad junk hall hbad => ?_⟩
  · simp [set_position, h1, h2]
  · simp only [set_position, if_pos rfl, List.drop_succ_cons, List.drop_zero]
    exact apply_setup_moves_stops move_from_uci do_move ts _ pos' bad junk hall hbad

/-- Witness for C10 over Pos = Nat: the unknown first token "startpo" leaves
the position 7 unchanged, and after "startpos moves x y" the parsable run
["x"] is played (position 8) and everything from the bad token "y" on is
ignored. -/
theorem set_position_spec_witness :
    ("startpo" ≠ "startpos" ∧ "startpo" ≠ "fen"
      ∧ set_position (fun _ => (0 : Nat)) (fun _ t => if t = "x" then 1 else 0)
          (fun p m => p + m) 7 ["startpo", "e2e4"] = 7)
    ∧ (play_all_moves (fun _ t => if t = "x" then 1 else 0) (fun p m => p + m)
          ((fun _ => (0 : Nat)) StarFEN) ["x"] = some 1
      ∧ (fun (_ : Nat) t => if t = "x" then (1 : Nat) else 0) 1 "y" = MOVE_NONE
      ∧ set_position (fun _ => (0 : Nat)) (fun _ t => if t = "x" then 1 else 0)
          (fun p m => p + m) 7 ("startpos" :: "moves" :: (["x"] ++ "y" :: ["z"])) = 1) :=
  ⟨⟨by decide, by decide,
      (set_position_spec (fun _ => (0 : Nat)) (fun _ t => if t = "x" then 1 else 0)
          (fun p m => p + m) 7).2.1 "startpo" ["e2e4"] (by decide) (by decide)⟩,
    by decide, by decide,
      (set_position_spec (fun _ => (0 : Nat)) (fun _ t => if t = "x" then 1 else 0)
          (fun p m => p + m) 7).2.2 ["x"] 1 "y" ["z"] (by decide) (by decide)⟩
